import Mathlib

/-!
Verification of the SPM inter-partition call/message core interface
(`secure_fw/spm/include/ffm/psa_api.h`).

The only executable code in the repository snapshot is the MM-IOVEC
status-word macro block; it is embedded here bit-exactly on `Nat`
(the status word is a C `uint32_t`, so stores are reduced mod `2^32`).
The bodies of the `tfm_spm_*` functions are not present in the snapshot
(the header only declares them); where a claim depends on such a body,
the definition below is modelled from the specification and says so in
its doc comment.
-/

namespace Spm

/-- Each vector occupies 4 bits (`IOVEC_STATUS_BITS` in the source header). -/
def IOVEC_STATUS_BITS : Nat := 4

/-- Base index of outvec: four invecs sit in front of the outvecs
(`OUTVEC_IDX_BASE` in the source header). -/
def OUTVEC_IDX_BASE : Nat := 4

/-- Base index of invec (`INVEC_IDX_BASE` in the source header). -/
def INVEC_IDX_BASE : Nat := 0

/-- `IOVEC_MAPPED_BIT = 1U << 0` from the source header. -/
def IOVEC_MAPPED_BIT : Nat := 1 <<< 0

/-- `IOVEC_UNMAPPED_BIT = 1U << 1` from the source header. -/
def IOVEC_UNMAPPED_BIT : Nat := 1 <<< 1

/-- `IOVEC_ACCESSED_BIT = 1U << 2` from the source header. -/
def IOVEC_ACCESSED_BIT : Nat := 1 <<< 2

/-- `IOVEC_IS_MAPPED(handle, iovec_idx)` from the source header:
`((handle->iovec_status) >> (iovec_idx * IOVEC_STATUS_BITS)) & IOVEC_MAPPED_BIT`.
The `handle->iovec_status` word is passed explicitly. -/
def IOVEC_IS_MAPPED (iovec_status iovec_idx : Nat) : Nat :=
  (iovec_status >>> (iovec_idx * IOVEC_STATUS_BITS)) &&& IOVEC_MAPPED_BIT

/-- `IOVEC_IS_UNMAPPED(handle, iovec_idx)` from the source header. -/
def IOVEC_IS_UNMAPPED (iovec_status iovec_idx : Nat) : Nat :=
  (iovec_status >>> (iovec_idx * IOVEC_STATUS_BITS)) &&& IOVEC_UNMAPPED_BIT

/-- `IOVEC_IS_ACCESSED(handle, iovec_idx)` from the source header. -/
def IOVEC_IS_ACCESSED (iovec_status iovec_idx : Nat) : Nat :=
  (iovec_status >>> (iovec_idx * IOVEC_STATUS_BITS)) &&& IOVEC_ACCESSED_BIT

/-- `SET_IOVEC_MAPPED(handle, iovec_idx)` from the source header:
`(handle->iovec_status) |= (IOVEC_MAPPED_BIT << (iovec_idx * IOVEC_STATUS_BITS))`.
The store target is a `uint32_t`, hence the reduction mod `2^32`. -/
def SET_IOVEC_MAPPED (iovec_status iovec_idx : Nat) : Nat :=
  (iovec_status ||| (IOVEC_MAPPED_BIT <<< (iovec_idx * IOVEC_STATUS_BITS))) % 2 ^ 32

/-- `SET_IOVEC_UNMAPPED(handle, iovec_idx)` from the source header. -/
def SET_IOVEC_UNMAPPED (iovec_status iovec_idx : Nat) : Nat :=
  (iovec_status ||| (IOVEC_UNMAPPED_BIT <<< (iovec_idx * IOVEC_STATUS_BITS))) % 2 ^ 32

/-- `SET_IOVEC_ACCESSED(handle, iovec_idx)` from the source header. -/
def SET_IOVEC_ACCESSED (iovec_status iovec_idx : Nat) : Nat :=
  (iovec_status ||| (IOVEC_ACCESSED_BIT <<< (iovec_idx * IOVEC_STATUS_BITS))) % 2 ^ 32

/-! ## Error domain -/

/-- The error outcomes distinguished by the header's doc comments:
a fatal programmer error (the faulting partition is terminated) versus the
ordinary `PSA_ERROR_DOES_NOT_EXIST` operational outcome. -/
inductive PsaError where
  | ProgrammerError
  | DoesNotExist
deriving DecidableEq

/-- `PSA_MAX_IOVEC`: at most 4 input and 4 output vectors per message. -/
def PSA_MAX_IOVEC : Nat := 4

/-! ## Vector Access Controller state

Modelled from the spec: the bodies of the `tfm_spm_partition_psa_read` /
`psa_skip` / `psa_write` / `psa_map_invec` / `psa_unmap_invec` /
`psa_map_outvec` / `psa_unmap_outvec` functions are not in the repository
snapshot (the header only declares them).  The per-message state they act
on is the `iovec_status` word (whose encoding and the IS/SET macros ARE in
the source header and are used below verbatim) together with the vectors:
each input vector keeps its remaining (not yet consumed) byte count, each
output vector its declared capacity and the bytes written so far.  Client
memory contents are outside the model; only lengths and status bits are
tracked. -/
structure Message where
  invec_rem : Nat → Nat
  outvec_len : Nat → Nat
  outvec_written : Nat → Nat
  iovec_status : Nat

/-- Modelled from the spec: body of `tfm_spm_partition_psa_map_invec` is not
in the snapshot.  Fatal programmer error if the index is out of range or the
slot is already mapped or already accessed (mixing modes is rejected);
otherwise the slot's mapped bit is set via the header's `SET_IOVEC_MAPPED`.
The returned pointer is elided (client memory is outside the model). -/
def tfm_spm_partition_psa_map_invec (m : Message) (invec_idx : Nat) :
    Except PsaError Unit × Message :=
  if PSA_MAX_IOVEC ≤ invec_idx then (.error .ProgrammerError, m)
  else if IOVEC_IS_MAPPED m.iovec_status (INVEC_IDX_BASE + invec_idx) ≠ 0 ∨
      IOVEC_IS_ACCESSED m.iovec_status (INVEC_IDX_BASE + invec_idx) ≠ 0 then
    (.error .ProgrammerError, m)
  else
    (.ok (), { m with iovec_status :=
        SET_IOVEC_MAPPED m.iovec_status (INVEC_IDX_BASE + invec_idx) })

/-- Modelled from the spec: body of `tfm_spm_partition_psa_unmap_invec` is
not in the snapshot.  Fatal programmer error if the index is out of range,
the slot was never mapped, or it is already unmapped; otherwise the
unmapped bit is set via the header's `SET_IOVEC_UNMAPPED`. -/
def tfm_spm_partition_psa_unmap_invec (m : Message) (invec_idx : Nat) :
    Except PsaError Unit × Message :=
  if PSA_MAX_IOVEC ≤ invec_idx then (.error .ProgrammerError, m)
  else if IOVEC_IS_MAPPED m.iovec_status (INVEC_IDX_BASE + invec_idx) = 0 ∨
      IOVEC_IS_UNMAPPED m.iovec_status (INVEC_IDX_BASE + invec_idx) ≠ 0 then
    (.error .ProgrammerError, m)
  else
    (.ok (), { m with iovec_status :=
        SET_IOVEC_UNMAPPED m.iovec_status (INVEC_IDX_BASE + invec_idx) })

/-- Modelled from the spec: body of `tfm_spm_partition_psa_map_outvec` is
not in the snapshot.  Same preconditions as `map_invec`, on the outvec
slot group (`OUTVEC_IDX_BASE`). -/
def tfm_spm_partition_psa_map_outvec (m : Message) (outvec_idx : Nat) :
    Except PsaError Unit × Message :=
  if PSA_MAX_IOVEC ≤ outvec_idx then (.error .ProgrammerError, m)
  else if IOVEC_IS_MAPPED m.iovec_status (OUTVEC_IDX_BASE + outvec_idx) ≠ 0 ∨
      IOVEC_IS_ACCESSED m.iovec_status (OUTVEC_IDX_BASE + outvec_idx) ≠ 0 then
    (.error .ProgrammerError, m)
  else
    (.ok (), { m with iovec_status :=
        SET_IOVEC_MAPPED m.iovec_status (OUTVEC_IDX_BASE + outvec_idx) })

/-- Modelled from the spec: body of `tfm_spm_partition_psa_unmap_outvec` is
not in the snapshot.  Releases a previously mapped outvec: fatal programmer
error if never mapped or already unmapped, or if the recorded written
length exceeds the declared capacity; otherwise records the written length
and sets the unmapped bit via `SET_IOVEC_UNMAPPED`. -/
def tfm_spm_partition_psa_unmap_outvec (m : Message) (outvec_idx len : Nat) :
    Except PsaError Unit × Message :=
  if PSA_MAX_IOVEC ≤ outvec_idx then (.error .ProgrammerError, m)
  else if IOVEC_IS_MAPPED m.iovec_status (OUTVEC_IDX_BASE + outvec_idx) = 0 ∨
      IOVEC_IS_UNMAPPED m.iovec_status (OUTVEC_IDX_BASE + outvec_idx) ≠ 0 then
    (.error .ProgrammerError, m)
  else if m.outvec_len outvec_idx < len then (.error .ProgrammerError, m)
  else
    (.ok (), { m with
        outvec_written := Function.update m.outvec_written outvec_idx len,
        iovec_status :=
          SET_IOVEC_UNMAPPED m.iovec_status (OUTVEC_IDX_BASE + outvec_idx) })

/-- Modelled from the spec: body of `tfm_spm_partition_psa_read` is not in
the snapshot.  Fatal programmer error if the index is out of range or the
slot has been mapped (copy access after zero-copy mapping is rejected);
otherwise copies `min num_bytes remaining` bytes, returns that count,
consumes it from the input vector, and marks the slot accessed via the
header's `SET_IOVEC_ACCESSED`. -/
def tfm_spm_partition_psa_read (m : Message) (invec_idx num_bytes : Nat) :
    Except PsaError Nat × Message :=
  if PSA_MAX_IOVEC ≤ invec_idx then (.error .ProgrammerError, m)
  else if IOVEC_IS_MAPPED m.iovec_status (INVEC_IDX_BASE + invec_idx) ≠ 0 then
    (.error .ProgrammerError, m)
  else
    let bytes := min num_bytes (m.invec_rem invec_idx)
    (.ok bytes, { m with
        invec_rem :=
          Function.update m.invec_rem invec_idx (m.invec_rem invec_idx - bytes),
        iovec_status :=
          SET_IOVEC_ACCESSED m.iovec_status (INVEC_IDX_BASE + invec_idx) })

/-- Modelled from the spec: body of `tfm_spm_partition_psa_skip` is not in
the snapshot.  Identical to `psa_read` except that no bytes are copied out:
`min num_bytes remaining` bytes are skipped and returned. -/
def tfm_spm_partition_psa_skip (m : Message) (invec_idx num_bytes : Nat) :
    Except PsaError Nat × Message :=
  if PSA_MAX_IOVEC ≤ invec_idx then (.error .ProgrammerError, m)
  else if IOVEC_IS_MAPPED m.iovec_status (INVEC_IDX_BASE + invec_idx) ≠ 0 then
    (.error .ProgrammerError, m)
  else
    let bytes := min num_bytes (m.invec_rem invec_idx)
    (.ok bytes, { m with
        invec_rem :=
          Function.update m.invec_rem invec_idx (m.invec_rem invec_idx - bytes),
        iovec_status :=
          SET_IOVEC_ACCESSED m.iovec_status (INVEC_IDX_BASE + invec_idx) })

/-- Modelled from the spec: body of `tfm_spm_partition_psa_write` is not in
the snapshot.  Fatal programmer error if the index is out of range, the
slot has been mapped, or the write would run past the declared output
length; otherwise appends the bytes and marks the slot accessed via the
header's `SET_IOVEC_ACCESSED` (on the outvec slot group). -/
def tfm_spm_partition_psa_write (m : Message) (outvec_idx num_bytes : Nat) :
    Except PsaError Unit × Message :=
  if PSA_MAX_IOVEC ≤ outvec_idx then (.error .ProgrammerError, m)
  else if IOVEC_IS_MAPPED m.iovec_status (OUTVEC_IDX_BASE + outvec_idx) ≠ 0 then
    (.error .ProgrammerError, m)
  else if m.outvec_len outvec_idx < m.outvec_written outvec_idx + num_bytes then
    (.error .ProgrammerError, m)
  else
    (.ok (), { m with
        outvec_written := Function.update m.outvec_written outvec_idx
          (m.outvec_written outvec_idx + num_bytes),
        iovec_status :=
          SET_IOVEC_ACCESSED m.iovec_status (OUTVEC_IDX_BASE + outvec_idx) })

/-- One operation of the Vector Access Controller on an in-flight message. -/
inductive VecOp where
  | mapIn (idx : Nat)
  | unmapIn (idx : Nat)
  | mapOut (idx : Nat)
  | unmapOut (idx : Nat) (len : Nat)
  | read (idx : Nat) (n : Nat)
  | skip (idx : Nat) (n : Nat)
  | write (idx : Nat) (n : Nat)

/-- Dispatch a `VecOp` to the corresponding modelled operation, discarding
the byte-count results so all operations share one result type. -/
def stepVec (m : Message) : VecOp → Except PsaError Unit × Message
  | .mapIn i =>
      tfm_spm_partition_psa_map_invec m i
  | .unmapIn i =>
      tfm_spm_partition_psa_unmap_invec m i
  | .mapOut i =>
      tfm_spm_partition_psa_map_outvec m i
  | .unmapOut i len =>
      tfm_spm_partition_psa_unmap_outvec m i len
  | .read i n =>
      let r := tfm_spm_partition_psa_read m i n
      (r.1.map fun _ => (), r.2)
  | .skip i n =>
      let r := tfm_spm_partition_psa_skip m i n
      (r.1.map fun _ => (), r.2)
  | .write i n =>
      let r := tfm_spm_partition_psa_write m i n
      (r.1.map fun _ => (), r.2)

/-- For every slot (4 invec then 4 outvec groups), the mapped bit and the
accessed bit of the status word are not both set. -/
def MutexInv (s : Nat) : Prop :=
  ∀ k, k < 8 → ¬(s.testBit (k * 4) = true ∧ s.testBit (k * 4 + 2) = true)

instance (s : Nat) : Decidable (MutexInv s) := by
  unfold MutexInv
  infer_instance

/-! ## Signal Engine and Interrupt Signal Manager state

Modelled from the spec: the bodies of `tfm_spm_partition_psa_get`,
`tfm_spm_partition_psa_notify` and `tfm_spm_partition_psa_irq_disable` are
not in the repository snapshot (the header only declares them). -/

/-- `PSA_DOORBELL`: the doorbell bit of a partition's signal register
(`0x00000008` in the PSA client interface). -/
def PSA_DOORBELL : Nat := 8

/-- Clear a single-bit signal from a bitmask.  When the bit is asserted the
XOR removes exactly that bit; extensionally this is `s & ~sig` for a
single-bit `sig`. -/
def clearSig (s sig : Nat) : Nat :=
  if s &&& sig = 0 then s else s ^^^ sig

/-- Per-partition state: the asserted-signal register, the message queue of
each registered service keyed by the service's (single-bit) signal value
with the oldest message first, the bitmask of interrupt signals the
partition owns, and the bitmask of currently enabled interrupts. -/
structure PartRec where
  signals : Nat
  queues : Nat → Option (List Nat)
  irq_owned : Nat
  irq_enabled : Nat

/-- The partition registry: partition id to partition record. -/
structure World where
  parts : Int → Option PartRec

/-- Modelled from the spec: body of `tfm_spm_partition_psa_get` is not in
the snapshot.  Fatal programmer error unless the signal has exactly one bit
set, names a registered service of the calling partition, and is currently
asserted.  If the service's queue is empty the call fails with
does-not-exist and the asserted signal bit is cleared; otherwise the oldest
pending message is dequeued and returned. -/
def tfm_spm_partition_psa_get (w : World) (caller : Int) (signal : Nat) :
    Except PsaError Nat × World :=
  match w.parts caller with
  | none => (.error .ProgrammerError, w)
  | some p =>
    if signal = 0 then (.error .ProgrammerError, w)
    else if signal &&& (signal - 1) ≠ 0 then (.error .ProgrammerError, w)
    else
      match p.queues signal with
      | none => (.error .ProgrammerError, w)
      | some q =>
        if p.signals &&& signal = 0 then (.error .ProgrammerError, w)
        else
          match q with
          | [] =>
              (.error .DoesNotExist,
               ⟨Function.update w.parts caller
                  (some { p with signals := clearSig p.signals signal })⟩)
          | msg :: rest =>
              (.ok msg,
               ⟨Function.update w.parts caller
                  (some { p with
                     queues := Function.update p.queues signal (some rest) })⟩)

/-- Modelled from the spec: body of `tfm_spm_partition_psa_notify` is not
in the snapshot.  Fatal programmer error if `partition_id` does not name a
partition; otherwise the doorbell bit is OR-ed into the target partition's
signal register. -/
def tfm_spm_partition_psa_notify (w : World) (partition_id : Int) :
    Except PsaError Unit × World :=
  match w.parts partition_id with
  | none => (.error .ProgrammerError, w)
  | some p =>
      (.ok (),
       ⟨Function.update w.parts partition_id
          (some { p with signals := p.signals ||| PSA_DOORBELL })⟩)

/-- Modelled from the spec and the header's own documentation: body of
`tfm_spm_partition_psa_irq_disable` is not in the snapshot.  Fatal
programmer error unless `irq_signal` has exactly one bit set and that bit
is an interrupt signal owned by the calling partition; otherwise the
interrupt is disabled.  Per the header's note ("The current implementation
always return 1. Do not use the return.") the success return value is the
constant 1, regardless of the prior enabled state. -/
def tfm_spm_partition_psa_irq_disable (w : World) (caller : Int)
    (irq_signal : Nat) : Except PsaError Nat × World :=
  match w.parts caller with
  | none => (.error .ProgrammerError, w)
  | some p =>
    if irq_signal = 0 then (.error .ProgrammerError, w)
    else if irq_signal &&& (irq_signal - 1) ≠ 0 then (.error .ProgrammerError, w)
    else if p.irq_owned &&& irq_signal = 0 then (.error .ProgrammerError, w)
    else
      (.ok 1,
       ⟨Function.update w.parts caller
          (some { p with irq_enabled := clearSig p.irq_enabled irq_signal })⟩)

/-! ## Handle Table

Modelled from the spec: the bodies of `tfm_spm_client_psa_connect` and
`tfm_spm_client_psa_close` are not in the repository snapshot. -/

/-- Connection state, as in the spec's handle state machine.  `Established`
carries whether a request is currently in flight. -/
inductive ConnState where
  | Connecting
  | Established (inflight : Bool)
  | Closing
deriving DecidableEq

/-- The handle table: positive handles name live connections; 0 is the
null handle; negative handles are stateless service handles. -/
structure HandleTable where
  conns : Int → Option ConnState

/-- Modelled from the spec: the success path of `tfm_spm_client_psa_connect`
(whose body is not in the snapshot) after the service's success reply —
the freshly allocated positive handle `h` is recorded in `Established`
state with no request in flight. -/
def spm_connect_success_reply (t : HandleTable) (h : Int) : HandleTable :=
  ⟨Function.update t.conns h (some (.Established false))⟩

/-- Modelled from the spec: body of `tfm_spm_client_psa_close` is not in
the snapshot.  Closing the null handle succeeds and is a no-op; a
stateless (negative) handle, an unknown positive handle, or a connection
that is not idle-Established is a fatal programmer error; otherwise the
disconnect message and release are modelled atomically and the handle is
removed from the table. -/
def tfm_spm_client_psa_close (t : HandleTable) (h : Int) :
    Except PsaError Unit × HandleTable :=
  if h = 0 then (.ok (), t)
  else if h < 0 then (.error .ProgrammerError, t)
  else
    match t.conns h with
    | some (.Established false) =>
        (.ok (), ⟨Function.update t.conns h none⟩)
    | _ => (.error .ProgrammerError, t)

/-! ## The combined system step (for the failure-atomicity claim)

Modelled from the spec: the bodies of `tfm_spm_client_psa_connect`,
`tfm_spm_client_psa_call`, `tfm_spm_partition_psa_wait`,
`tfm_spm_partition_psa_reply`, `tfm_spm_partition_psa_set_rhandle`,
`tfm_spm_partition_psa_clear`, `tfm_spm_partition_psa_irq_enable`,
`tfm_spm_partition_psa_reset_signal` and `tfm_spm_partition_psa_eoi` are
not in the repository snapshot (the header only declares them); they are
modelled here from the spec on top of the component state already defined
above, so that the failure-atomicity claim can quantify over every
operation of the core.  The isolation boundary that validates memory
references is the spec's external collaborator; it appears as the
`accessible` oracle in the system state, consulted before any mutation by
every operation that takes a client memory reference. -/

/-- `PSA_ERROR_CONNECTION_REFUSED` from the PSA status domain
(modelled from the spec's named negative error codes). -/
def PSA_ERROR_CONNECTION_REFUSED : Int := -150

/-- `PSA_ERROR_CONNECTION_BUSY` from the PSA status domain
(modelled from the spec's named negative error codes). -/
def PSA_ERROR_CONNECTION_BUSY : Int := -151

/-- Append a message to the FIFO queue of the service with signal value
`sig` in partition `pid` and assert that signal (oldest message at the
head). -/
def World.enqueue (w : World) (pid : Int) (sig : Nat) (msgid : Nat) :
    World :=
  match w.parts pid with
  | none => w
  | some p =>
      ⟨Function.update w.parts pid (some { p with
          signals := p.signals ||| sig,
          queues := Function.update p.queues sig
            (some ((p.queues sig).getD [] ++ [msgid])) })⟩

/-- The shared state of the modelled core: the in-flight message's vector
state, the handle table, the partition registry (signal registers, service
queues, interrupt masks), the per-connection service id and reverse
handle, the manifest data (service registry, connect permissions,
first-level-handling classes), the isolation-boundary accessibility
oracle, the handle allocator, and the in-flight message bookkeeping
(liveness, kind 0=Connect/1=Call/2=Disconnect, handle). -/
structure Sys where
  msg : Message
  table : HandleTable
  world : World
  conn_sid : Int → Nat
  conn_rhandle : Int → Nat
  services : Nat → Option (Nat × Int × Nat)
  perms : Int → Nat → Bool
  accessible : Int → Nat → Nat → Bool
  flih : Nat → Bool
  next_handle : Int
  msg_live : Bool
  msg_kind : Nat
  msg_handle : Int

/-- Modelled from the spec: body of `tfm_spm_client_psa_connect` is not in
the snapshot.  Fatal programmer error if the service id is unknown, the
version is not supported, or the caller lacks permission; otherwise (the
initiation half of the blocking call) a fresh handle is allocated in
`Connecting` state, a Connect message is queued to the owning partition's
service and its signal asserted. -/
def tfm_spm_client_psa_connect (s : Sys) (caller : Int) (sid version : Nat) :
    Except PsaError Int × Sys :=
  match s.services sid with
  | none => (.error .ProgrammerError, s)
  | some vos =>
      if vos.1 ≠ version then (.error .ProgrammerError, s)
      else if s.perms caller sid = false then (.error .ProgrammerError, s)
      else
        (.ok s.next_handle,
         { s with
             table := ⟨Function.update s.table.conns s.next_handle
               (some .Connecting)⟩,
             conn_sid := Function.update s.conn_sid s.next_handle sid,
             world := s.world.enqueue vos.2.1 vos.2.2 s.next_handle.toNat,
             next_handle := s.next_handle + 1,
             msg_live := true,
             msg_kind := 0,
             msg_handle := s.next_handle })

/-- Modelled from the spec: body of `tfm_spm_client_psa_call` is not in
the snapshot.  Fatal programmer error if the handle is null, a positive
handle is not an idle Established connection (unknown, or already handling
a request), a vector count exceeds `PSA_MAX_IOVEC`, any vector memory
reference is outside the caller's accessible memory (isolation-boundary
check), or the connection's service is unknown; all checks precede every
mutation.  Otherwise the connection enters the request-in-flight substate,
a Call message carrying the vector lengths is queued to the service and
its signal asserted. -/
def tfm_spm_client_psa_call (s : Sys) (caller handle : Int) (req_type : Nat)
    (in_vecs out_vecs : List (Nat × Nat)) : Except PsaError Unit × Sys :=
  if handle = 0 then (.error .ProgrammerError, s)
  else if 0 < handle ∧
      s.table.conns handle ≠ some (ConnState.Established false) then
    (.error .ProgrammerError, s)
  else if PSA_MAX_IOVEC < in_vecs.length ∨
      PSA_MAX_IOVEC < out_vecs.length then
    (.error .ProgrammerError, s)
  else if ((in_vecs ++ out_vecs).all fun v =>
      s.accessible caller v.1 v.2) = false then
    (.error .ProgrammerError, s)
  else
    match s.services (s.conn_sid handle) with
    | none => (.error .ProgrammerError, s)
    | some vos =>
        (.ok (),
         { s with
             table := if 0 < handle then
                 ⟨Function.update s.table.conns handle
                   (some (ConnState.Established true))⟩
               else s.table,
             world := s.world.enqueue vos.2.1 vos.2.2 handle.toNat,
             msg := ⟨fun i => (in_vecs[i]?.map Prod.snd).getD 0,
                     fun i => (out_vecs[i]?.map Prod.snd).getD 0,
                     fun _ => 0, 0⟩,
             msg_live := true,
             msg_kind := 1,
             msg_handle := handle })

/-- Modelled from the spec: body of `tfm_spm_partition_psa_wait` is not in
the snapshot.  Returns the asserted subset of the queried signal mask; the
suspend/resume of a blocking wait belongs to the external scheduler and
mutates none of the state modelled here.  The header documents no
programmer-error case for wait; an unknown calling partition is rejected
defensively. -/
def tfm_spm_partition_psa_wait (s : Sys) (caller : Int)
    (signal_mask _timeout : Nat) : Except PsaError Nat × Sys :=
  match s.world.parts caller with
  | none => (.error .ProgrammerError, s)
  | some p => (.ok (p.signals &&& signal_mask), s)

/-- Modelled from the spec: body of `tfm_spm_partition_psa_reply` is not
in the snapshot.  Fatal programmer error if the message handle is invalid
(no live message or a different handle) or the status is not legal for the
message's kind (a Connect message may only be answered with success,
refused, or busy); otherwise the message is retired, and a successful
Connect reply promotes the connection to idle Established. -/
def tfm_spm_partition_psa_reply (s : Sys) (msg_handle : Int) (status : Int) :
    Except PsaError Unit × Sys :=
  if s.msg_live = false ∨ msg_handle ≠ s.msg_handle then
    (.error .ProgrammerError, s)
  else if s.msg_kind = 0 ∧
      ¬(status = 0 ∨ status = PSA_ERROR_CONNECTION_REFUSED ∨
        status = PSA_ERROR_CONNECTION_BUSY) then
    (.error .ProgrammerError, s)
  else
    (.ok (),
     { s with
         msg_live := false,
         table :=
           if s.msg_kind = 0 ∧ status = 0 then
             ⟨Function.update s.table.conns msg_handle
               (some (ConnState.Established false))⟩
           else s.table })

/-- Modelled from the spec: body of `tfm_spm_partition_psa_set_rhandle` is
not in the snapshot.  Fatal programmer error if the message handle is
invalid; otherwise the service-chosen reverse handle is stored on the
message's connection. -/
def tfm_spm_partition_psa_set_rhandle (s : Sys) (msg_handle : Int)
    (rhandle : Nat) : Except PsaError Unit × Sys :=
  if s.msg_live = false ∨ msg_handle ≠ s.msg_handle then
    (.error .ProgrammerError, s)
  else
    (.ok (), { s with conn_rhandle :=
        Function.update s.conn_rhandle msg_handle rhandle })

/-- Modelled from the spec: body of `tfm_spm_partition_psa_clear` is not
in the snapshot.  Fatal programmer error if the caller's doorbell signal
is not currently asserted; otherwise the doorbell bit is cleared. -/
def tfm_spm_partition_psa_clear (s : Sys) (caller : Int) :
    Except PsaError Unit × Sys :=
  match s.world.parts caller with
  | none => (.error .ProgrammerError, s)
  | some p =>
      if p.signals &&& PSA_DOORBELL = 0 then (.error .ProgrammerError, s)
      else
        (.ok (), { s with world := ⟨Function.update s.world.parts caller
            (some { p with signals := clearSig p.signals PSA_DOORBELL })⟩ })

/-- Modelled from the spec: body of `tfm_spm_partition_psa_irq_enable` is
not in the snapshot.  Fatal programmer error unless the signal has exactly
one bit set and that bit is an interrupt signal owned by the caller;
otherwise the interrupt's enabled bit is set. -/
def tfm_spm_partition_psa_irq_enable (s : Sys) (caller : Int)
    (irq_signal : Nat) : Except PsaError Unit × Sys :=
  match s.world.parts caller with
  | none => (.error .ProgrammerError, s)
  | some p =>
      if irq_signal = 0 then (.error .ProgrammerError, s)
      else if irq_signal &&& (irq_signal - 1) ≠ 0 then
        (.error .ProgrammerError, s)
      else if p.irq_owned &&& irq_signal = 0 then
        (.error .ProgrammerError, s)
      else
        (.ok (), { s with world := ⟨Function.update s.world.parts caller
            (some { p with irq_enabled := p.irq_enabled ||| irq_signal })⟩ })

/-- Modelled from the spec: body of `tfm_spm_partition_psa_reset_signal`
is not in the snapshot.  Fatal programmer error unless the signal is a
single bit, an interrupt signal owned by the caller, classed for
first-level handling in the manifest, and currently asserted; otherwise
the asserted bit is cleared. -/
def tfm_spm_partition_psa_reset_signal (s : Sys) (caller : Int)
    (irq_signal : Nat) : Except PsaError Unit × Sys :=
  match s.world.parts caller with
  | none => (.error .ProgrammerError, s)
  | some p =>
      if irq_signal = 0 then (.error .ProgrammerError, s)
      else if irq_signal &&& (irq_signal - 1) ≠ 0 then
        (.error .ProgrammerError, s)
      else if p.irq_owned &&& irq_signal = 0 then
        (.error .ProgrammerError, s)
      else if s.flih irq_signal = false then (.error .ProgrammerError, s)
      else if p.signals &&& irq_signal = 0 then (.error .ProgrammerError, s)
      else
        (.ok (), { s with world := ⟨Function.update s.world.parts caller
            (some { p with signals := clearSig p.signals irq_signal })⟩ })

/-- Modelled from the spec: body of `tfm_spm_partition_psa_eoi` is not in
the snapshot.  Same validation as reset_signal but for the second-level
handling class; clears the asserted bit and signals completion to the
hardware (the re-arm itself is the external interrupt controller's). -/
def tfm_spm_partition_psa_eoi (s : Sys) (caller : Int) (irq_signal : Nat) :
    Except PsaError Unit × Sys :=
  match s.world.parts caller with
  | none => (.error .ProgrammerError, s)
  | some p =>
      if irq_signal = 0 then (.error .ProgrammerError, s)
      else if irq_signal &&& (irq_signal - 1) ≠ 0 then
        (.error .ProgrammerError, s)
      else if p.irq_owned &&& irq_signal = 0 then
        (.error .ProgrammerError, s)
      else if s.flih irq_signal = true then (.error .ProgrammerError, s)
      else if p.signals &&& irq_signal = 0 then (.error .ProgrammerError, s)
      else
        (.ok (), { s with world := ⟨Function.update s.world.parts caller
            (some { p with signals := clearSig p.signals irq_signal })⟩ })

/-- One operation of the modelled core: every API entry point of the
header.  Operations that take a client memory reference carry the
(base, length) pair the isolation boundary must validate. -/
inductive Op where
  | connect (caller : Int) (sid version : Nat)
  | call (caller : Int) (handle : Int) (req_type : Nat)
      (in_vecs out_vecs : List (Nat × Nat))
  | close (h : Int)
  | wait (caller : Int) (signal_mask timeout : Nat)
  | get (caller : Int) (signal : Nat) (msg_ptr : Nat × Nat)
  | read (caller : Int) (idx n : Nat) (buffer : Nat × Nat)
  | skip (idx n : Nat)
  | write (caller : Int) (idx n : Nat) (buffer : Nat × Nat)
  | mapIn (idx : Nat)
  | unmapIn (idx : Nat)
  | mapOut (idx : Nat)
  | unmapOut (idx : Nat) (len : Nat)
  | reply (msg_handle : Int) (status : Int)
  | set_rhandle (msg_handle : Int) (rhandle : Nat)
  | notify (partition_id : Int)
  | clear (caller : Int)
  | irqEnable (caller : Int) (irq_signal : Nat)
  | irqDisable (caller : Int) (irq_signal : Nat)
  | resetSignal (caller : Int) (irq_signal : Nat)
  | eoi (caller : Int) (irq_signal : Nat)

/-- Dispatch an `Op` to the modelled operation acting on the shared
state, discarding result payloads.  For get, read and write, the memory
reference supplied by the caller is validated against the isolation
boundary before the component operation runs, as the header's programmer
error lists require. -/
def stepSys (s : Sys) : Op → Except PsaError Unit × Sys
  | .connect caller sid version =>
      let r := tfm_spm_client_psa_connect s caller sid version
      (r.1.map fun _ => (), r.2)
  | .call caller handle ty ivs ovs =>
      tfm_spm_client_psa_call s caller handle ty ivs ovs
  | .close h =>
      let r := tfm_spm_client_psa_close s.table h
      (r.1, { s with table := r.2 })
  | .wait caller mask t =>
      let r := tfm_spm_partition_psa_wait s caller mask t
      (r.1.map fun _ => (), r.2)
  | .get caller signal ptr =>
      if s.accessible caller ptr.1 ptr.2 = false then
        (.error .ProgrammerError, s)
      else
        let r := tfm_spm_partition_psa_get s.world caller signal
        (r.1.map fun _ => (), { s with world := r.2 })
  | .read caller idx n buf =>
      if s.accessible caller buf.1 buf.2 = false then
        (.error .ProgrammerError, s)
      else
        let r := stepVec s.msg (.read idx n)
        (r.1, { s with msg := r.2 })
  | .skip idx n =>
      let r := stepVec s.msg (.skip idx n)
      (r.1, { s with msg := r.2 })
  | .write caller idx n buf =>
      if s.accessible caller buf.1 buf.2 = false then
        (.error .ProgrammerError, s)
      else
        let r := stepVec s.msg (.write idx n)
        (r.1, { s with msg := r.2 })
  | .mapIn idx =>
      let r := stepVec s.msg (.mapIn idx)
      (r.1, { s with msg := r.2 })
  | .unmapIn idx =>
      let r := stepVec s.msg (.unmapIn idx)
      (r.1, { s with msg := r.2 })
  | .mapOut idx =>
      let r := stepVec s.msg (.mapOut idx)
      (r.1, { s with msg := r.2 })
  | .unmapOut idx len =>
      let r := stepVec s.msg (.unmapOut idx len)
      (r.1, { s with msg := r.2 })
  | .reply mh status =>
      tfm_spm_partition_psa_reply s mh status
  | .set_rhandle mh rh =>
      tfm_spm_partition_psa_set_rhandle s mh rh
  | .notify pid =>
      let r := tfm_spm_partition_psa_notify s.world pid
      (r.1, { s with world := r.2 })
  | .clear caller =>
      tfm_spm_partition_psa_clear s caller
  | .irqEnable caller sig =>
      tfm_spm_partition_psa_irq_enable s caller sig
  | .irqDisable caller sig =>
      let r := tfm_spm_partition_psa_irq_disable s.world caller sig
      (r.1.map fun _ => (), { s with world := r.2 })
  | .resetSignal caller sig =>
      tfm_spm_partition_psa_reset_signal s caller sig
  | .eoi caller sig =>
      tfm_spm_partition_psa_eoi s caller sig

/-- An empty concrete system state, used by witnesses: no partitions, no
services, no connections, no accessible memory. -/
def emptySys : Sys :=
  ⟨⟨fun _ => 0, fun _ => 0, fun _ => 0, 0⟩, ⟨fun _ => none⟩,
   ⟨fun _ => none⟩, fun _ => 0, fun _ => 0, fun _ => none,
   fun _ _ => false, fun _ _ _ => false, fun _ => false, 1, false, 0, 0⟩

/-- A request in a sequence of copy-mode accesses to one input vector
slot: a read of at most `n` bytes or a skip of at most `n` bytes. -/
inductive RdOp where
  | rd (n : Nat)
  | sk (n : Nat)

/-- Run a sequence of read/skip requests against input slot `idx`,
accumulating the total byte count the calls returned.  A fatal programmer
error terminates the faulting partition, so any remaining requests are
dropped and contribute nothing. -/
def runRd (m : Message) (idx : Nat) : List RdOp → Nat × Message
  | [] => (0, m)
  | op :: rest =>
      let r := match op with
        | .rd n => tfm_spm_partition_psa_read m idx n
        | .sk n => tfm_spm_partition_psa_skip m idx n
      match r.1 with
      | .ok b =>
          let t := runRd r.2 idx rest
          (b + t.1, t.2)
      | .error _ => (0, r.2)

/-! ## Bit-level helper lemmas -/

theorem shiftLeft_one_eq (k : Nat) : (1 : Nat) <<< k = 2 ^ k := by
  rw [Nat.shiftLeft_eq, one_mul]

theorem pow_shiftLeft_eq (c k : Nat) : (2 : Nat) ^ c <<< k = 2 ^ (k + c) := by
  rw [Nat.shiftLeft_eq, ← pow_add, Nat.add_comm]

/-- Extracting a single bit: `(s >> k) & 2^c` is nonzero iff bit `k + c` of `s` is set. -/
theorem shiftRight_and_pow_ne_zero (s k c : Nat) :
    ((s >>> k) &&& 2 ^ c ≠ 0) ↔ s.testBit (k + c) = true := by
  rw [Nat.and_two_pow, Nat.testBit_shiftRight]
  cases h : s.testBit (k + c) <;> simp [h]

/-- The bit pattern of an OR-in of a single bit, stored into a 32-bit word. -/
theorem testBit_or_pow_mod (s j b : Nat) :
    (((s ||| 2 ^ j) % 2 ^ 32).testBit b) =
      (decide (b < 32) && (s.testBit b || decide (j = b))) := by
  rw [Nat.testBit_mod_two_pow, Nat.testBit_or, Nat.testBit_two_pow]

/-- For an in-range word and bit, the 32-bit store of an OR-in is the plain OR. -/
theorem or_pow_mod_eq (s j : Nat) (hs : s < 2 ^ 32) (hj : j < 32) :
    (s ||| 2 ^ j) % 2 ^ 32 = s ||| 2 ^ j := by
  have h2 : (2 : Nat) ^ j < 2 ^ 32 := Nat.pow_lt_pow_right (by omega) hj
  exact Nat.mod_eq_of_lt (Nat.or_lt_two_pow hs h2)

theorem testBit_false_of_lt (s b : Nat) (hs : s < 2 ^ 32) (hb : 32 ≤ b) :
    s.testBit b = false :=
  Nat.testBit_lt_two_pow
    (lt_of_lt_of_le hs (Nat.pow_le_pow_right (by omega) hb))

/-! Characterisations of the IS macros in terms of single bits. -/

theorem isMapped_iff (s i : Nat) :
    IOVEC_IS_MAPPED s i ≠ 0 ↔ s.testBit (i * 4) = true := by
  have := shiftRight_and_pow_ne_zero s (i * IOVEC_STATUS_BITS) 0
  simpa [IOVEC_IS_MAPPED, IOVEC_MAPPED_BIT, IOVEC_STATUS_BITS,
    shiftLeft_one_eq] using this

theorem isUnmapped_iff (s i : Nat) :
    IOVEC_IS_UNMAPPED s i ≠ 0 ↔ s.testBit (i * 4 + 1) = true := by
  have := shiftRight_and_pow_ne_zero s (i * IOVEC_STATUS_BITS) 1
  simpa [IOVEC_IS_UNMAPPED, IOVEC_UNMAPPED_BIT, IOVEC_STATUS_BITS,
    shiftLeft_one_eq] using this

theorem isAccessed_iff (s i : Nat) :
    IOVEC_IS_ACCESSED s i ≠ 0 ↔ s.testBit (i * 4 + 2) = true := by
  have := shiftRight_and_pow_ne_zero s (i * IOVEC_STATUS_BITS) 2
  simpa [IOVEC_IS_ACCESSED, IOVEC_ACCESSED_BIT, IOVEC_STATUS_BITS,
    shiftLeft_one_eq] using this

/-! Bit patterns of the SET macros (no range hypotheses needed). -/

theorem setMapped_testBit (s i b : Nat) :
    (SET_IOVEC_MAPPED s i).testBit b =
      (decide (b < 32) && (s.testBit b || decide (i * 4 = b))) := by
  rw [SET_IOVEC_MAPPED, IOVEC_MAPPED_BIT, IOVEC_STATUS_BITS, shiftLeft_one_eq,
    pow_shiftLeft_eq, testBit_or_pow_mod]
  norm_num

theorem setUnmapped_testBit (s i b : Nat) :
    (SET_IOVEC_UNMAPPED s i).testBit b =
      (decide (b < 32) && (s.testBit b || decide (i * 4 + 1 = b))) := by
  rw [SET_IOVEC_UNMAPPED, IOVEC_UNMAPPED_BIT, IOVEC_STATUS_BITS,
    shiftLeft_one_eq, pow_shiftLeft_eq, testBit_or_pow_mod]

theorem setAccessed_testBit (s i b : Nat) :
    (SET_IOVEC_ACCESSED s i).testBit b =
      (decide (b < 32) && (s.testBit b || decide (i * 4 + 2 = b))) := by
  rw [SET_IOVEC_ACCESSED, IOVEC_ACCESSED_BIT, IOVEC_STATUS_BITS,
    shiftLeft_one_eq, pow_shiftLeft_eq, testBit_or_pow_mod]

/-! Equational forms of the SET macros for in-range words and slots. -/

theorem setMapped_eq (s i : Nat) (hs : s < 2 ^ 32) (hi : i < 8) :
    SET_IOVEC_MAPPED s i = s ||| 2 ^ (i * 4) := by
  rw [SET_IOVEC_MAPPED, IOVEC_MAPPED_BIT, IOVEC_STATUS_BITS, shiftLeft_one_eq,
    pow_shiftLeft_eq, Nat.add_zero]
  exact or_pow_mod_eq s (i * 4) hs (by omega)

theorem setUnmapped_eq (s i : Nat) (hs : s < 2 ^ 32) (hi : i < 8) :
    SET_IOVEC_UNMAPPED s i = s ||| 2 ^ (i * 4 + 1) := by
  rw [SET_IOVEC_UNMAPPED, IOVEC_UNMAPPED_BIT, IOVEC_STATUS_BITS,
    shiftLeft_one_eq, pow_shiftLeft_eq]
  exact or_pow_mod_eq s (i * 4 + 1) hs (by omega)

theorem setAccessed_eq (s i : Nat) (hs : s < 2 ^ 32) (hi : i < 8) :
    SET_IOVEC_ACCESSED s i = s ||| 2 ^ (i * 4 + 2) := by
  rw [SET_IOVEC_ACCESSED, IOVEC_ACCESSED_BIT, IOVEC_STATUS_BITS,
    shiftLeft_one_eq, pow_shiftLeft_eq]
  exact or_pow_mod_eq s (i * 4 + 2) hs (by omega)

/-! Frame and monotonicity forms of the SET macros. -/

theorem setMapped_testBit_other (s i b : Nat) (hb : b < 32) (hne : i * 4 ≠ b) :
    (SET_IOVEC_MAPPED s i).testBit b = s.testBit b := by
  rw [setMapped_testBit]
  simp [hb, hne]

theorem setUnmapped_testBit_other (s i b : Nat) (hb : b < 32)
    (hne : i * 4 + 1 ≠ b) :
    (SET_IOVEC_UNMAPPED s i).testBit b = s.testBit b := by
  rw [setUnmapped_testBit]
  simp [hb, hne]

theorem setAccessed_testBit_other (s i b : Nat) (hb : b < 32)
    (hne : i * 4 + 2 ≠ b) :
    (SET_IOVEC_ACCESSED s i).testBit b = s.testBit b := by
  rw [setAccessed_testBit]
  simp [hb, hne]

theorem setMapped_testBit_mono (s i b : Nat) (hb : b < 32)
    (h : s.testBit b = true) : (SET_IOVEC_MAPPED s i).testBit b = true := by
  rw [setMapped_testBit]
  simp [hb, h]

theorem setUnmapped_testBit_mono (s i b : Nat) (hb : b < 32)
    (h : s.testBit b = true) : (SET_IOVEC_UNMAPPED s i).testBit b = true := by
  rw [setUnmapped_testBit]
  simp [hb, h]

theorem setAccessed_testBit_mono (s i b : Nat) (hb : b < 32)
    (h : s.testBit b = true) : (SET_IOVEC_ACCESSED s i).testBit b = true := by
  rw [setAccessed_testBit]
  simp [hb, h]

/-- The value of `IOVEC_IS_MAPPED` is the mapped bit of the slot as 0 or 1. -/
theorem isMapped_eq_toNat (s i : Nat) :
    IOVEC_IS_MAPPED s i = (s.testBit (i * 4)).toNat := by
  have h := Nat.and_two_pow (s >>> (i * IOVEC_STATUS_BITS)) 0
  rw [Nat.testBit_shiftRight] at h
  simpa [IOVEC_IS_MAPPED, IOVEC_MAPPED_BIT, IOVEC_STATUS_BITS,
    shiftLeft_one_eq] using h

/-! Zero-value forms of the IS macros. -/

theorem isMapped_eq_zero_iff (s i : Nat) :
    IOVEC_IS_MAPPED s i = 0 ↔ s.testBit (i * 4) = false := by
  have h := isMapped_iff s i
  cases hb : s.testBit (i * 4) <;> simp [hb] at h ⊢ <;> omega

theorem isUnmapped_eq_zero_iff (s i : Nat) :
    IOVEC_IS_UNMAPPED s i = 0 ↔ s.testBit (i * 4 + 1) = false := by
  have h := isUnmapped_iff s i
  cases hb : s.testBit (i * 4 + 1) <;> simp [hb] at h ⊢ <;> omega

theorem isAccessed_eq_zero_iff (s i : Nat) :
    IOVEC_IS_ACCESSED s i = 0 ↔ s.testBit (i * 4 + 2) = false := by
  have h := isAccessed_iff s i
  cases hb : s.testBit (i * 4 + 2) <;> simp [hb] at h ⊢ <;> omega

/-- Setting an accessed bit never sets any mapped bit (the touched position
is 2 mod 4, mapped positions are 0 mod 4). -/
theorem isMapped_zero_setAccessed (s i i' : Nat)
    (h : IOVEC_IS_MAPPED s i = 0) :
    IOVEC_IS_MAPPED (SET_IOVEC_ACCESSED s i') i = 0 := by
  rw [isMapped_eq_zero_iff] at h ⊢
  rw [setAccessed_testBit]
  have hne : ¬(i' * 4 + 2 = i * 4) := by omega
  simp [h, hne]

/-! Preservation of the mapped/accessed mutual-exclusion invariant by each
SET macro under the guard the corresponding operation checks. -/

theorem mutexInv_setMapped (s i : Nat)
    (ha : s.testBit (i * 4 + 2) = false) (hInv : MutexInv s) :
    MutexInv (SET_IOVEC_MAPPED s i) := by
  intro k hk
  rintro ⟨hA, hB⟩
  rw [setMapped_testBit_other s i (k * 4 + 2) (by omega) (by omega)] at hB
  by_cases hik : i = k
  · subst hik
    rw [ha] at hB
    cases hB
  · rw [setMapped_testBit_other s i (k * 4) (by omega) (by omega)] at hA
    exact hInv k hk ⟨hA, hB⟩

theorem mutexInv_setAccessed (s i : Nat)
    (hm : s.testBit (i * 4) = false) (hInv : MutexInv s) :
    MutexInv (SET_IOVEC_ACCESSED s i) := by
  intro k hk
  rintro ⟨hA, hB⟩
  rw [setAccessed_testBit_other s i (k * 4) (by omega) (by omega)] at hA
  by_cases hik : i = k
  · subst hik
    rw [hm] at hA
    cases hA
  · rw [setAccessed_testBit_other s i (k * 4 + 2) (by omega) (by omega)] at hB
    exact hInv k hk ⟨hA, hB⟩

theorem mutexInv_setUnmapped (s i : Nat) (hInv : MutexInv s) :
    MutexInv (SET_IOVEC_UNMAPPED s i) := by
  intro k hk
  rintro ⟨hA, hB⟩
  rw [setUnmapped_testBit_other s i (k * 4) (by omega) (by omega)] at hA
  rw [setUnmapped_testBit_other s i (k * 4 + 2) (by omega) (by omega)] at hB
  exact hInv k hk ⟨hA, hB⟩

/-- Conservation across a sequence of copy-mode accesses: bytes returned
plus bytes still remaining equals the bytes remaining at the start. -/
theorem runRd_conserves (ops : List RdOp) (m : Message) (idx : Nat)
    (h4 : idx < 4)
    (hmap : IOVEC_IS_MAPPED m.iovec_status (INVEC_IDX_BASE + idx) = 0) :
    (runRd m idx ops).1 + (runRd m idx ops).2.invec_rem idx =
      m.invec_rem idx := by
  induction ops generalizing m with
  | nil => simp [runRd]
  | cons op rest ih =>
      have hlt : ¬ PSA_MAX_IOVEC ≤ idx := by
        simp [PSA_MAX_IOVEC]
        omega
      cases op with
      | rd n =>
          rw [runRd]
          simp only [tfm_spm_partition_psa_read, if_neg hlt, hmap]
          simp only [ne_eq, not_true_eq_false, if_false]
          have hmap' : IOVEC_IS_MAPPED
              (SET_IOVEC_ACCESSED m.iovec_status (INVEC_IDX_BASE + idx))
              (INVEC_IDX_BASE + idx) = 0 :=
            isMapped_zero_setAccessed _ _ _ hmap
          have h := ih { m with
            invec_rem := Function.update m.invec_rem idx
              (m.invec_rem idx - min n (m.invec_rem idx)),
            iovec_status :=
              SET_IOVEC_ACCESSED m.iovec_status (INVEC_IDX_BASE + idx) } hmap'
          simp only [Function.update_same] at h ⊢
          omega
      | sk n =>
          rw [runRd]
          simp only [tfm_spm_partition_psa_skip, if_neg hlt, hmap]
          simp only [ne_eq, not_true_eq_false, if_false]
          have hmap' : IOVEC_IS_MAPPED
              (SET_IOVEC_ACCESSED m.iovec_status (INVEC_IDX_BASE + idx))
              (INVEC_IDX_BASE + idx) = 0 :=
            isMapped_zero_setAccessed _ _ _ hmap
          have h := ih { m with
            invec_rem := Function.update m.invec_rem idx
              (m.invec_rem idx - min n (m.invec_rem idx)),
            iovec_status :=
              SET_IOVEC_ACCESSED m.iovec_status (INVEC_IDX_BASE + idx) } hmap'
          simp only [Function.update_same] at h ⊢
          omega

/-! Signal-bitmask helper lemmas. -/

theorem and_two_pow_ne_iff (s b : Nat) :
    s &&& 2 ^ b ≠ 0 ↔ s.testBit b = true := by
  rw [Nat.and_two_pow]
  cases h : s.testBit b
  · simp [h]
  · simp [h]

/-- A power of two is a single-bit value: and-ing with its predecessor
gives zero. -/
theorem two_pow_and_pred (b : Nat) : 2 ^ b &&& (2 ^ b - 1) = 0 := by
  rw [Nat.two_pow_and, Nat.testBit_two_pow_sub_one]
  simp

/-- Clearing an asserted single-bit signal clears exactly that bit. -/
theorem clearSig_two_pow (s b : Nat) (h : s &&& 2 ^ b ≠ 0) :
    clearSig s (2 ^ b) &&& 2 ^ b = 0 := by
  rw [clearSig, if_neg h, Nat.and_two_pow, Nat.testBit_xor,
    Nat.testBit_two_pow]
  have ht := (and_two_pow_ne_iff s b).mp h
  simp [ht]

/-- OR-ing the doorbell bit asserts it. -/
theorem or_doorbell_asserted (x : Nat) :
    (x ||| PSA_DOORBELL) &&& PSA_DOORBELL = PSA_DOORBELL := by
  have h8 : PSA_DOORBELL = 2 ^ 3 := rfl
  rw [h8, Nat.and_two_pow, Nat.testBit_or, Nat.testBit_two_pow]
  simp

/-! Frame lemmas: a programmer error mutates nothing. -/

theorem stepVec_error_frame (m : Message) (op : VecOp) (e : PsaError)
    (he : (stepVec m op).1 = .error e) : (stepVec m op).2 = m := by
  cases op with
  | mapIn i =>
      rw [stepVec, tfm_spm_partition_psa_map_invec] at he ⊢
      split
      · rfl
      · split
        · rfl
        · simp_all
  | unmapIn i =>
      rw [stepVec, tfm_spm_partition_psa_unmap_invec] at he ⊢
      split
      · rfl
      · split
        · rfl
        · simp_all
  | mapOut i =>
      rw [stepVec, tfm_spm_partition_psa_map_outvec] at he ⊢
      split
      · rfl
      · split
        · rfl
        · simp_all
  | unmapOut i len =>
      rw [stepVec, tfm_spm_partition_psa_unmap_outvec] at he ⊢
      split
      · rfl
      · split
        · rfl
        · split
          · rfl
          · simp_all
  | read i n =>
      rw [stepVec] at he ⊢
      simp only [tfm_spm_partition_psa_read] at he ⊢
      split
      · rfl
      · split
        · rfl
        · simp_all [Except.map]
  | skip i n =>
      rw [stepVec] at he ⊢
      simp only [tfm_spm_partition_psa_skip] at he ⊢
      split
      · rfl
      · split
        · rfl
        · simp_all [Except.map]
  | write i n =>
      rw [stepVec] at he ⊢
      simp only [tfm_spm_partition_psa_write] at he ⊢
      split
      · rfl
      · split
        · rfl
        · split
          · rfl
          · simp_all [Except.map]

theorem close_error_frame (t : HandleTable) (h : Int) (e : PsaError)
    (he : (tfm_spm_client_psa_close t h).1 = .error e) :
    (tfm_spm_client_psa_close t h).2 = t := by
  rw [tfm_spm_client_psa_close] at he ⊢
  split
  · rfl
  · split
    · rfl
    · split
      · simp_all
      · rfl

theorem get_programmer_error_frame (w : World) (caller : Int) (signal : Nat)
    (he : (tfm_spm_partition_psa_get w caller signal).1 =
      .error .ProgrammerError) :
    (tfm_spm_partition_psa_get w caller signal).2 = w := by
  rw [tfm_spm_partition_psa_get] at he ⊢
  cases hp : w.parts caller with
  | none => simp [hp]
  | some p =>
      simp only [hp] at he ⊢
      split
      · rfl
      · split
        · rfl
        · split
          · rfl
          · split
            · rfl
            · split
              · simp_all
              · simp_all

theorem notify_error_frame (w : World) (pid : Int) (e : PsaError)
    (he : (tfm_spm_partition_psa_notify w pid).1 = .error e) :
    (tfm_spm_partition_psa_notify w pid).2 = w := by
  rw [tfm_spm_partition_psa_notify] at he ⊢
  cases hp : w.parts pid with
  | none => simp [hp]
  | some p => simp [hp] at he

theorem irq_disable_error_frame (w : World) (caller : Int) (signal : Nat)
    (e : PsaError)
    (he : (tfm_spm_partition_psa_irq_disable w caller signal).1 = .error e) :
    (tfm_spm_partition_psa_irq_disable w caller signal).2 = w := by
  rw [tfm_spm_partition_psa_irq_disable] at he ⊢
  cases hp : w.parts caller with
  | none => simp [hp]
  | some p =>
      simp only [hp] at he ⊢
      split
      · rfl
      · split
        · rfl
        · split
          · rfl
          · simp_all [Except.map]

/-! Frame lemmas for the remaining operations: a programmer error mutates
nothing. -/

theorem except_map_error_eq {α β : Type} (r : Except PsaError α)
    (f : α → β) (e : PsaError) (h : Except.map f r = .error e) :
    r = .error e := by
  cases r with
  | ok v => simp [Except.map] at h
  | error a =>
      simp [Except.map] at h
      rw [h]

theorem connect_error_frame (s : Sys) (caller : Int) (sid version : Nat)
    (e : PsaError)
    (he : (tfm_spm_client_psa_connect s caller sid version).1 = .error e) :
    (tfm_spm_client_psa_connect s caller sid version).2 = s := by
  rw [tfm_spm_client_psa_connect] at he ⊢
  cases hsv : s.services sid with
  | none => simp [hsv]
  | some vos =>
      simp only [hsv] at he ⊢
      split
      · rfl
      · split
        · rfl
        · simp_all

theorem call_error_frame (s : Sys) (caller handle : Int) (req_type : Nat)
    (in_vecs out_vecs : List (Nat × Nat)) (e : PsaError)
    (he : (tfm_spm_client_psa_call s caller handle req_type
      in_vecs out_vecs).1 = .error e) :
    (tfm_spm_client_psa_call s caller handle req_type in_vecs out_vecs).2 =
      s := by
  rw [tfm_spm_client_psa_call] at he ⊢
  split
  · rfl
  · split
    · rfl
    · split
      · rfl
      · split
        · rfl
        · cases hsv : s.services (s.conn_sid handle) with
          | none => simp [hsv]
          | some vos => simp_all [hsv]

theorem wait_error_frame (s : Sys) (caller : Int) (signal_mask timeout : Nat)
    (e : PsaError)
    (he : (tfm_spm_partition_psa_wait s caller signal_mask timeout).1 =
      .error e) :
    (tfm_spm_partition_psa_wait s caller signal_mask timeout).2 = s := by
  rw [tfm_spm_partition_psa_wait] at he ⊢
  cases hp : s.world.parts caller with
  | none => simp [hp]
  | some p => simp [hp] at he

theorem reply_error_frame (s : Sys) (msg_handle : Int) (status : Int)
    (e : PsaError)
    (he : (tfm_spm_partition_psa_reply s msg_handle status).1 = .error e) :
    (tfm_spm_partition_psa_reply s msg_handle status).2 = s := by
  rw [tfm_spm_partition_psa_reply] at he ⊢
  split_ifs at he ⊢ <;> simp_all

theorem set_rhandle_error_frame (s : Sys) (msg_handle : Int) (rhandle : Nat)
    (e : PsaError)
    (he : (tfm_spm_partition_psa_set_rhandle s msg_handle rhandle).1 =
      .error e) :
    (tfm_spm_partition_psa_set_rhandle s msg_handle rhandle).2 = s := by
  rw [tfm_spm_partition_psa_set_rhandle] at he ⊢
  split
  · rfl
  · simp_all

theorem clear_error_frame (s : Sys) (caller : Int) (e : PsaError)
    (he : (tfm_spm_partition_psa_clear s caller).1 = .error e) :
    (tfm_spm_partition_psa_clear s caller).2 = s := by
  rw [tfm_spm_partition_psa_clear] at he ⊢
  cases hp : s.world.parts caller with
  | none => simp [hp]
  | some p =>
      simp only [hp] at he ⊢
      split
      · rfl
      · simp_all

theorem irq_enable_error_frame (s : Sys) (caller : Int) (irq_signal : Nat)
    (e : PsaError)
    (he : (tfm_spm_partition_psa_irq_enable s caller irq_signal).1 =
      .error e) :
    (tfm_spm_partition_psa_irq_enable s caller irq_signal).2 = s := by
  rw [tfm_spm_partition_psa_irq_enable] at he ⊢
  cases hp : s.world.parts caller with
  | none => simp [hp]
  | some p =>
      simp only [hp] at he ⊢
      split
      · rfl
      · split
        · rfl
        · split
          · rfl
          · simp_all

theorem reset_signal_error_frame (s : Sys) (caller : Int) (irq_signal : Nat)
    (e : PsaError)
    (he : (tfm_spm_partition_psa_reset_signal s caller irq_signal).1 =
      .error e) :
    (tfm_spm_partition_psa_reset_signal s caller irq_signal).2 = s := by
  rw [tfm_spm_partition_psa_reset_signal] at he ⊢
  cases hp : s.world.parts caller with
  | none => simp [hp]
  | some p =>
      simp only [hp] at he ⊢
      split
      · rfl
      · split
        · rfl
        · split
          · rfl
          · split
            · rfl
            · split
              · rfl
              · simp_all

theorem eoi_error_frame (s : Sys) (caller : Int) (irq_signal : Nat)
    (e : PsaError)
    (he : (tfm_spm_partition_psa_eoi s caller irq_signal).1 = .error e) :
    (tfm_spm_partition_psa_eoi s caller irq_signal).2 = s := by
  rw [tfm_spm_partition_psa_eoi] at he ⊢
  cases hp : s.world.parts caller with
  | none => simp [hp]
  | some p =>
      simp only [hp] at he ⊢
      split
      · rfl
      · split
        · rfl
        · split
          · rfl
          · split
            · rfl
            · split
              · rfl
              · simp_all

/-! ## Claim theorems -/

/-- Claim C1: the vector-access-status word is encoded bit-exactly: in a
32-bit word with 4 bits per slot, invec slot `i` (0-3) occupies bits from
offset `i*4` and outvec slot `j` (0-3) from offset `16 + j*4`; within a
slot's 4-bit group, bit 0 is mapped, bit 1 unmapped, bit 2 accessed, and
bit 3 (reserved) is neither read nor set by any of the IOVEC_IS_* /
SET_IOVEC_* macros. -/
theorem iovec_status_encoding_bit_exact (s i j : Nat) (hs : s < 2 ^ 32)
    (hi : i < 4) (hj : j < 4) :
    (IOVEC_IS_MAPPED s (INVEC_IDX_BASE + i) ≠ 0 ↔ s.testBit (i * 4) = true) ∧
    (IOVEC_IS_UNMAPPED s (INVEC_IDX_BASE + i) ≠ 0 ↔
      s.testBit (i * 4 + 1) = true) ∧
    (IOVEC_IS_ACCESSED s (INVEC_IDX_BASE + i) ≠ 0 ↔
      s.testBit (i * 4 + 2) = true) ∧
    (IOVEC_IS_MAPPED s (OUTVEC_IDX_BASE + j) ≠ 0 ↔
      s.testBit (16 + j * 4) = true) ∧
    (IOVEC_IS_UNMAPPED s (OUTVEC_IDX_BASE + j) ≠ 0 ↔
      s.testBit (16 + j * 4 + 1) = true) ∧
    (IOVEC_IS_ACCESSED s (OUTVEC_IDX_BASE + j) ≠ 0 ↔
      s.testBit (16 + j * 4 + 2) = true) ∧
    (SET_IOVEC_MAPPED s (INVEC_IDX_BASE + i) = s ||| 2 ^ (i * 4)) ∧
    (SET_IOVEC_UNMAPPED s (INVEC_IDX_BASE + i) = s ||| 2 ^ (i * 4 + 1)) ∧
    (SET_IOVEC_ACCESSED s (INVEC_IDX_BASE + i) = s ||| 2 ^ (i * 4 + 2)) ∧
    (SET_IOVEC_MAPPED s (OUTVEC_IDX_BASE + j) = s ||| 2 ^ (16 + j * 4)) ∧
    (SET_IOVEC_UNMAPPED s (OUTVEC_IDX_BASE + j) = s ||| 2 ^ (16 + j * 4 + 1)) ∧
    (SET_IOVEC_ACCESSED s (OUTVEC_IDX_BASE + j) = s ||| 2 ^ (16 + j * 4 + 2)) ∧
    ((SET_IOVEC_MAPPED s (INVEC_IDX_BASE + i)).testBit (i * 4 + 3) =
      s.testBit (i * 4 + 3)) ∧
    ((SET_IOVEC_UNMAPPED s (INVEC_IDX_BASE + i)).testBit (i * 4 + 3) =
      s.testBit (i * 4 + 3)) ∧
    ((SET_IOVEC_ACCESSED s (INVEC_IDX_BASE + i)).testBit (i * 4 + 3) =
      s.testBit (i * 4 + 3)) ∧
    ((SET_IOVEC_MAPPED s (OUTVEC_IDX_BASE + j)).testBit (16 + j * 4 + 3) =
      s.testBit (16 + j * 4 + 3)) ∧
    ((SET_IOVEC_UNMAPPED s (OUTVEC_IDX_BASE + j)).testBit (16 + j * 4 + 3) =
      s.testBit (16 + j * 4 + 3)) ∧
    ((SET_IOVEC_ACCESSED s (OUTVEC_IDX_BASE + j)).testBit (16 + j * 4 + 3) =
      s.testBit (16 + j * 4 + 3)) := by
  have e1 : INVEC_IDX_BASE + i = i := by simp [INVEC_IDX_BASE]
  have e2 : OUTVEC_IDX_BASE + j = 4 + j := by simp [OUTVEC_IDX_BASE]
  have f0 : 16 + j * 4 = (4 + j) * 4 := by ring
  rw [e1, e2, f0]
  refine ⟨isMapped_iff s i, isUnmapped_iff s i, isAccessed_iff s i,
    isMapped_iff s (4 + j), isUnmapped_iff s (4 + j), isAccessed_iff s (4 + j),
    setMapped_eq s i hs (by omega), setUnmapped_eq s i hs (by omega),
    setAccessed_eq s i hs (by omega),
    setMapped_eq s (4 + j) hs (by omega), setUnmapped_eq s (4 + j) hs (by omega),
    setAccessed_eq s (4 + j) hs (by omega),
    setMapped_testBit_other s i (i * 4 + 3) (by omega) (by omega),
    setUnmapped_testBit_other s i (i * 4 + 3) (by omega) (by omega),
    setAccessed_testBit_other s i (i * 4 + 3) (by omega) (by omega),
    setMapped_testBit_other s (4 + j) ((4 + j) * 4 + 3) (by omega) (by omega),
    setUnmapped_testBit_other s (4 + j) ((4 + j) * 4 + 3) (by omega) (by omega),
    setAccessed_testBit_other s (4 + j) ((4 + j) * 4 + 3) (by omega) (by omega)⟩

/-- Witness for C1 at the concrete word `0x00040012`, invec slot 1,
outvec slot 2. -/
theorem iovec_status_encoding_bit_exact_witness :
    (262162 : Nat) < 2 ^ 32 ∧ (1 : Nat) < 4 ∧ (2 : Nat) < 4 ∧
    (IOVEC_IS_MAPPED 262162 (INVEC_IDX_BASE + 1) ≠ 0 ↔
      Nat.testBit 262162 (1 * 4) = true) :=
  ⟨by decide, by decide, by decide,
   (iovec_status_encoding_bit_exact 262162 1 2 (by decide) (by decide)
     (by decide)).1⟩

/-- Claim C10: each SET_IOVEC_* macro only bitwise-ORs a single bit into
`iovec_status`: every bit already set remains set (in particular setting
the unmapped bit leaves the mapped bit of the same slot unchanged), and
every bit outside slot `idx`'s 4-bit group is unchanged. -/
theorem set_iovec_macros_or_single_bit (s idx b : Nat) (hs : s < 2 ^ 32)
    (hidx : idx < 8) :
    (s.testBit b = true → (SET_IOVEC_MAPPED s idx).testBit b = true) ∧
    (s.testBit b = true → (SET_IOVEC_UNMAPPED s idx).testBit b = true) ∧
    (s.testBit b = true → (SET_IOVEC_ACCESSED s idx).testBit b = true) ∧
    (b < idx * 4 ∨ idx * 4 + 3 < b →
      (SET_IOVEC_MAPPED s idx).testBit b = s.testBit b) ∧
    (b < idx * 4 ∨ idx * 4 + 3 < b →
      (SET_IOVEC_UNMAPPED s idx).testBit b = s.testBit b) ∧
    (b < idx * 4 ∨ idx * 4 + 3 < b →
      (SET_IOVEC_ACCESSED s idx).testBit b = s.testBit b) ∧
    IOVEC_IS_MAPPED (SET_IOVEC_UNMAPPED s idx) idx = IOVEC_IS_MAPPED s idx := by
  have hb32 : b < 32 ∨ 32 ≤ b := by omega
  have hfalse : 32 ≤ b → s.testBit b = false := fun h =>
    testBit_false_of_lt s b hs h
  refine ⟨?_, ?_, ?_, ?_, ?_, ?_, ?_⟩
  · intro h
    rcases hb32 with hb | hb
    · exact setMapped_testBit_mono s idx b hb h
    · rw [hfalse hb] at h
      cases h
  · intro h
    rcases hb32 with hb | hb
    · exact setUnmapped_testBit_mono s idx b hb h
    · rw [hfalse hb] at h
      cases h
  · intro h
    rcases hb32 with hb | hb
    · exact setAccessed_testBit_mono s idx b hb h
    · rw [hfalse hb] at h
      cases h
  · intro h
    rcases hb32 with hb | hb
    · exact setMapped_testBit_other s idx b hb (by omega)
    · have hnb : ¬ b < 32 := by omega
      rw [setMapped_testBit]
      simp [hfalse hb, hnb]
  · intro h
    rcases hb32 with hb | hb
    · exact setUnmapped_testBit_other s idx b hb (by omega)
    · have hnb : ¬ b < 32 := by omega
      rw [setUnmapped_testBit]
      simp [hfalse hb, hnb]
  · intro h
    rcases hb32 with hb | hb
    · exact setAccessed_testBit_other s idx b hb (by omega)
    · have hnb : ¬ b < 32 := by omega
      rw [setAccessed_testBit]
      simp [hfalse hb, hnb]
  · rw [isMapped_eq_toNat, isMapped_eq_toNat,
      setUnmapped_testBit_other s idx (idx * 4) (by omega) (by omega)]

/-- Witness for C10 at the concrete word 5, slot 0, bit 2: the accessed
bit already set survives setting the unmapped bit, and the mapped bit of
slot 0 is unchanged by setting its unmapped bit. -/
theorem set_iovec_macros_or_single_bit_witness :
    (5 : Nat) < 2 ^ 32 ∧ (0 : Nat) < 8 ∧
    (Nat.testBit 5 2 = true → (SET_IOVEC_UNMAPPED 5 0).testBit 2 = true) ∧
    IOVEC_IS_MAPPED (SET_IOVEC_UNMAPPED 5 0) 0 = IOVEC_IS_MAPPED 5 0 :=
  ⟨by decide, by decide,
   (set_iovec_macros_or_single_bit 5 0 2 (by decide) (by decide)).2.1,
   (set_iovec_macros_or_single_bit 5 0 2 (by decide)
     (by decide)).2.2.2.2.2.2⟩

/-- Claim C2: for every in-flight message and every slot in range, the
mapped and accessed bits are mutually exclusive across the life of the
message: mapping a slot that is already mapped or already accessed is a
fatal programmer error that changes nothing; read/skip/write on a slot
that is mapped (and not legally unmapped) is a fatal programmer error that
changes nothing; the mutual-exclusion invariant holds of the initial
all-clear status word and is preserved by every operation. -/
theorem map_access_mutual_exclusion (m : Message) (idx n : Nat) (op : VecOp)
    (h4 : idx < 4) :
    (IOVEC_IS_MAPPED m.iovec_status (INVEC_IDX_BASE + idx) ≠ 0 ∨
     IOVEC_IS_ACCESSED m.iovec_status (INVEC_IDX_BASE + idx) ≠ 0 →
      tfm_spm_partition_psa_map_invec m idx = (.error .ProgrammerError, m)) ∧
    (IOVEC_IS_MAPPED m.iovec_status (OUTVEC_IDX_BASE + idx) ≠ 0 ∨
     IOVEC_IS_ACCESSED m.iovec_status (OUTVEC_IDX_BASE + idx) ≠ 0 →
      tfm_spm_partition_psa_map_outvec m idx = (.error .ProgrammerError, m)) ∧
    (IOVEC_IS_MAPPED m.iovec_status (INVEC_IDX_BASE + idx) ≠ 0 →
      tfm_spm_partition_psa_read m idx n = (.error .ProgrammerError, m) ∧
      tfm_spm_partition_psa_skip m idx n = (.error .ProgrammerError, m)) ∧
    (IOVEC_IS_MAPPED m.iovec_status (OUTVEC_IDX_BASE + idx) ≠ 0 →
      tfm_spm_partition_psa_write m idx n = (.error .ProgrammerError, m)) ∧
    (MutexInv m.iovec_status → MutexInv (stepVec m op).2.iovec_status) ∧
    MutexInv 0 := by
  have hlt : ¬ PSA_MAX_IOVEC ≤ idx := by
    simp only [PSA_MAX_IOVEC]
    omega
  refine ⟨?_, ?_, ?_, ?_, ?_, by decide⟩
  · intro h
    rw [tfm_spm_partition_psa_map_invec, if_neg hlt, if_pos h]
  · intro h
    rw [tfm_spm_partition_psa_map_outvec, if_neg hlt, if_pos h]
  · intro h
    constructor
    · rw [tfm_spm_partition_psa_read, if_neg hlt, if_pos h]
    · rw [tfm_spm_partition_psa_skip, if_neg hlt, if_pos h]
  · intro h
    rw [tfm_spm_partition_psa_write, if_neg hlt, if_pos h]
  · intro hInv
    cases op with
    | mapIn i =>
        rw [stepVec, tfm_spm_partition_psa_map_invec]
        split
        · exact hInv
        · split
          · exact hInv
          · next hcond =>
              push_neg at hcond
              exact mutexInv_setMapped _ _
                ((isAccessed_eq_zero_iff _ _).mp hcond.2) hInv
    | unmapIn i =>
        rw [stepVec, tfm_spm_partition_psa_unmap_invec]
        split
        · exact hInv
        · split
          · exact hInv
          · exact mutexInv_setUnmapped _ _ hInv
    | mapOut i =>
        rw [stepVec, tfm_spm_partition_psa_map_outvec]
        split
        · exact hInv
        · split
          · exact hInv
          · next hcond =>
              push_neg at hcond
              exact mutexInv_setMapped _ _
                ((isAccessed_eq_zero_iff _ _).mp hcond.2) hInv
    | unmapOut i len =>
        rw [stepVec, tfm_spm_partition_psa_unmap_outvec]
        split
        · exact hInv
        · split
          · exact hInv
          · split
            · exact hInv
            · exact mutexInv_setUnmapped _ _ hInv
    | read i k =>
        rw [stepVec]
        simp only [tfm_spm_partition_psa_read]
        split
        · exact hInv
        · split
          · exact hInv
          · next hcond =>
              exact mutexInv_setAccessed _ _
                ((isMapped_eq_zero_iff _ _).mp (by omega)) hInv
    | skip i k =>
        rw [stepVec]
        simp only [tfm_spm_partition_psa_skip]
        split
        · exact hInv
        · split
          · exact hInv
          · next hcond =>
              exact mutexInv_setAccessed _ _
                ((isMapped_eq_zero_iff _ _).mp (by omega)) hInv
    | write i k =>
        rw [stepVec]
        simp only [tfm_spm_partition_psa_write]
        split
        · exact hInv
        · split
          · exact hInv
          · split
            · exact hInv
            · next hcond _ =>
                exact mutexInv_setAccessed _ _
                  ((isMapped_eq_zero_iff _ _).mp (by omega)) hInv

/-- Witness for C2 on a message whose slot 0 is already mapped
(status word 1): a second map of slot 0 fails and changes nothing, a read
of slot 0 fails and changes nothing, and one step preserves the invariant. -/
theorem map_access_mutual_exclusion_witness :
    (0 : Nat) < 4 ∧
    (IOVEC_IS_MAPPED (1 : Nat) (INVEC_IDX_BASE + 0) ≠ 0 ∨
     IOVEC_IS_ACCESSED (1 : Nat) (INVEC_IDX_BASE + 0) ≠ 0) ∧
    tfm_spm_partition_psa_map_invec ⟨fun _ => 7, fun _ => 0, fun _ => 0, 1⟩ 0 =
      (.error .ProgrammerError, ⟨fun _ => 7, fun _ => 0, fun _ => 0, 1⟩) ∧
    tfm_spm_partition_psa_read ⟨fun _ => 7, fun _ => 0, fun _ => 0, 1⟩ 0 3 =
      (.error .ProgrammerError, ⟨fun _ => 7, fun _ => 0, fun _ => 0, 1⟩) ∧
    MutexInv (stepVec ⟨fun _ => 7, fun _ => 0, fun _ => 0, 1⟩
      (.mapIn 0)).2.iovec_status := by
  have h := map_access_mutual_exclusion
    ⟨fun _ => 7, fun _ => 0, fun _ => 0, 1⟩ 0 3 (.mapIn 0) (by decide)
  exact ⟨by decide, by left; decide,
    h.1 (by left; decide),
    (h.2.2.1 (by decide)).1,
    h.2.2.2.2.1 (by decide)⟩

/-- Claim C4: the per-slot bits of the status word are monotonic: any bit
set before an operation on an in-flight message is still set after it
(in particular no operation, the unmap following a map included, ever
clears a bit). -/
theorem iovec_status_monotonic (m : Message) (op : VecOp) (b : Nat)
    (hs : m.iovec_status < 2 ^ 32)
    (h : m.iovec_status.testBit b = true) :
    (stepVec m op).2.iovec_status.testBit b = true := by
  have hb : b < 32 := by
    by_contra hb
    rw [testBit_false_of_lt m.iovec_status b hs (by omega)] at h
    cases h
  cases op with
  | mapIn i =>
      rw [stepVec, tfm_spm_partition_psa_map_invec]
      split
      · exact h
      · split
        · exact h
        · exact setMapped_testBit_mono _ _ _ hb h
  | unmapIn i =>
      rw [stepVec, tfm_spm_partition_psa_unmap_invec]
      split
      · exact h
      · split
        · exact h
        · exact setUnmapped_testBit_mono _ _ _ hb h
  | mapOut i =>
      rw [stepVec, tfm_spm_partition_psa_map_outvec]
      split
      · exact h
      · split
        · exact h
        · exact setMapped_testBit_mono _ _ _ hb h
  | unmapOut i len =>
      rw [stepVec, tfm_spm_partition_psa_unmap_outvec]
      split
      · exact h
      · split
        · exact h
        · split
          · exact h
          · exact setUnmapped_testBit_mono _ _ _ hb h
  | read i k =>
      rw [stepVec]
      simp only [tfm_spm_partition_psa_read]
      split
      · exact h
      · split
        · exact h
        · exact setAccessed_testBit_mono _ _ _ hb h
  | skip i k =>
      rw [stepVec]
      simp only [tfm_spm_partition_psa_skip]
      split
      · exact h
      · split
        · exact h
        · exact setAccessed_testBit_mono _ _ _ hb h
  | write i k =>
      rw [stepVec]
      simp only [tfm_spm_partition_psa_write]
      split
      · exact h
      · split
        · exact h
        · split
          · exact h
          · exact setAccessed_testBit_mono _ _ _ hb h

/-- Witness for C4: the accessed bit of slot 0 (status word 4) survives a
read on slot 0. -/
theorem iovec_status_monotonic_witness :
    (4 : Nat) < 2 ^ 32 ∧ Nat.testBit 4 2 = true ∧
    (stepVec ⟨fun _ => 8, fun _ => 0, fun _ => 0, 4⟩
      (.read 0 5)).2.iovec_status.testBit 2 = true :=
  ⟨by decide, by decide,
   iovec_status_monotonic ⟨fun _ => 8, fun _ => 0, fun _ => 0, 4⟩
     (.read 0 5) 2 (by decide) (by decide)⟩

/-- Claim C5: on an unmapped input slot in range, a single read or skip
returns exactly `min requested remaining` (so never more than the
remaining length) and consumes it; over any sequence of reads and skips
the bytes returned plus the bytes remaining equal the initial remaining
length, so once the slot is exhausted the cumulative total equals the
slot's declared length; and a read or skip of an exhausted slot returns
0 bytes. -/
theorem read_skip_cumulative (m : Message) (idx n : Nat) (ops : List RdOp)
    (h4 : idx < 4)
    (hmap : IOVEC_IS_MAPPED m.iovec_status (INVEC_IDX_BASE + idx) = 0) :
    ((tfm_spm_partition_psa_read m idx n).1 =
        .ok (min n (m.invec_rem idx)) ∧
      (tfm_spm_partition_psa_read m idx n).2.invec_rem idx =
        m.invec_rem idx - min n (m.invec_rem idx)) ∧
    ((tfm_spm_partition_psa_skip m idx n).1 =
        .ok (min n (m.invec_rem idx)) ∧
      (tfm_spm_partition_psa_skip m idx n).2.invec_rem idx =
        m.invec_rem idx - min n (m.invec_rem idx)) ∧
    min n (m.invec_rem idx) ≤ m.invec_rem idx ∧
    (runRd m idx ops).1 + (runRd m idx ops).2.invec_rem idx =
      m.invec_rem idx ∧
    ((runRd m idx ops).2.invec_rem idx = 0 →
      (runRd m idx ops).1 = m.invec_rem idx) ∧
    (m.invec_rem idx = 0 →
      (tfm_spm_partition_psa_read m idx n).1 = .ok 0 ∧
      (tfm_spm_partition_psa_skip m idx n).1 = .ok 0) := by
  have hlt : ¬ PSA_MAX_IOVEC ≤ idx := by
    simp only [PSA_MAX_IOVEC]
    omega
  have hrd :
      tfm_spm_partition_psa_read m idx n =
        (.ok (min n (m.invec_rem idx)),
         { m with
             invec_rem := Function.update m.invec_rem idx
               (m.invec_rem idx - min n (m.invec_rem idx)),
             iovec_status :=
               SET_IOVEC_ACCESSED m.iovec_status (INVEC_IDX_BASE + idx) }) := by
    rw [tfm_spm_partition_psa_read, if_neg hlt, hmap]
    simp
  have hsk :
      tfm_spm_partition_psa_skip m idx n =
        (.ok (min n (m.invec_rem idx)),
         { m with
             invec_rem := Function.update m.invec_rem idx
               (m.invec_rem idx - min n (m.invec_rem idx)),
             iovec_status :=
               SET_IOVEC_ACCESSED m.iovec_status (INVEC_IDX_BASE + idx) }) := by
    rw [tfm_spm_partition_psa_skip, if_neg hlt, hmap]
    simp
  have hcons := runRd_conserves ops m idx h4 hmap
  refine ⟨⟨?_, ?_⟩, ⟨?_, ?_⟩, ?_, hcons, ?_, ?_⟩
  · rw [hrd]
  · rw [hrd]
    simp
  · rw [hsk]
  · rw [hsk]
    simp
  · exact Nat.min_le_right n (m.invec_rem idx)
  · intro hz
    omega
  · intro hz
    rw [hrd, hsk]
    simp [hz]

/-- Witness for C5 on a fresh message whose input slot 0 holds 10 bytes:
a read of 4 returns 4, and the sequence read 4, skip 3, read 99 returns
10 bytes in total, exhausting the slot. -/
theorem read_skip_cumulative_witness :
    (0 : Nat) < 4 ∧
    IOVEC_IS_MAPPED
      (Message.iovec_status ⟨fun _ => 10, fun _ => 0, fun _ => 0, 0⟩)
      (INVEC_IDX_BASE + 0) = 0 ∧
    (tfm_spm_partition_psa_read ⟨fun _ => 10, fun _ => 0, fun _ => 0, 0⟩
        0 4).1 =
      .ok (min 4 (Message.invec_rem ⟨fun _ => 10, fun _ => 0, fun _ => 0, 0⟩ 0)) ∧
    ((runRd ⟨fun _ => 10, fun _ => 0, fun _ => 0, 0⟩ 0
        [.rd 4, .sk 3, .rd 99]).2.invec_rem 0 = 0 →
      (runRd ⟨fun _ => 10, fun _ => 0, fun _ => 0, 0⟩ 0
        [.rd 4, .sk 3, .rd 99]).1 =
        Message.invec_rem ⟨fun _ => 10, fun _ => 0, fun _ => 0, 0⟩ 0) := by
  have h := read_skip_cumulative ⟨fun _ => 10, fun _ => 0, fun _ => 0, 0⟩
    0 4 [.rd 4, .sk 3, .rd 99] (by decide) (by decide)
  exact ⟨by decide, by decide, h.1.1, h.2.2.2.2.1⟩

/-- Claim C6: for a valid single-bit service signal that is currently
asserted for the calling partition, get fails with does-not-exist exactly
when the service's message queue is empty, in which case the asserted
signal bit is also cleared; when the queue is non-empty, get succeeds and
dequeues the oldest pending message. -/
theorem get_does_not_exist_iff_empty (w : World) (caller : Int) (p : PartRec)
    (b : Nat) (q : List Nat)
    (hpart : w.parts caller = some p)
    (hq : p.queues (2 ^ b) = some q)
    (hsig : p.signals &&& 2 ^ b ≠ 0) :
    ((tfm_spm_partition_psa_get w caller (2 ^ b)).1 =
        .error .DoesNotExist ↔ q = []) ∧
    ((tfm_spm_partition_psa_get w caller (2 ^ b)).1 =
        q.head?.elim (Except.error PsaError.DoesNotExist) Except.ok) ∧
    (q = [] →
      (tfm_spm_partition_psa_get w caller (2 ^ b)).2.parts caller =
        some { p with signals := clearSig p.signals (2 ^ b) } ∧
      clearSig p.signals (2 ^ b) &&& 2 ^ b = 0) ∧
    (q ≠ [] →
      (tfm_spm_partition_psa_get w caller (2 ^ b)).2.parts caller =
        some { p with queues :=
          Function.update p.queues (2 ^ b) (some q.tail) }) := by
  have h2 : 0 < (2 : Nat) ^ b := pow_pos (by omega) b
  have hnz : ¬ (2 : Nat) ^ b = 0 := by omega
  have hpred : ¬ (2 ^ b &&& (2 ^ b - 1) ≠ 0) := by
    rw [two_pow_and_pred]
    simp
  cases q with
  | nil =>
      simp only [tfm_spm_partition_psa_get, hpart, if_neg hnz, if_neg hpred,
        hq, if_neg hsig]
      refine ⟨by simp, by simp, ?_, by simp⟩
      intro _
      exact ⟨by simp [Function.update_same], clearSig_two_pow _ _ hsig⟩
  | cons msg rest =>
      simp only [tfm_spm_partition_psa_get, hpart, if_neg hnz, if_neg hpred,
        hq, if_neg hsig]
      refine ⟨by simp, by simp, by simp, ?_⟩
      intro _
      simp [Function.update_same]

/-- Witness for C6 on a partition (id 3) whose service signal bit 1 is
asserted with a one-message queue: get does not report does-not-exist. -/
theorem get_does_not_exist_iff_empty_witness :
    World.parts ⟨fun pid => if pid = 3 then
        some ⟨2, fun sig => if sig = 2 then some [42] else none, 0, 0⟩
      else none⟩ 3 =
      some ⟨2, fun sig => if sig = 2 then some [42] else none, 0, 0⟩ ∧
    PartRec.queues ⟨2, fun sig => if sig = 2 then some [42] else none, 0, 0⟩
      (2 ^ 1) = some [42] ∧
    PartRec.signals ⟨2, fun sig => if sig = 2 then some [42] else none, 0, 0⟩
      &&& 2 ^ 1 ≠ 0 ∧
    ((tfm_spm_partition_psa_get ⟨fun pid => if pid = 3 then
        some ⟨2, fun sig => if sig = 2 then some [42] else none, 0, 0⟩
      else none⟩ 3 (2 ^ 1)).1 =
        .error .DoesNotExist ↔ ([42] : List Nat) = []) := by
  have h := get_does_not_exist_iff_empty
    ⟨fun pid => if pid = 3 then
        some ⟨2, fun sig => if sig = 2 then some [42] else none, 0, 0⟩
      else none⟩ 3
    ⟨2, fun sig => if sig = 2 then some [42] else none, 0, 0⟩ 1 [42]
    rfl rfl (by decide)
  exact ⟨rfl, rfl, by decide, h.1⟩

/-- Claim C7: a connect that receives a success reply yields a positive
handle in Established state; close on it succeeds exactly once, releasing
the handle, and a second close on the released handle is a fatal
programmer error with the table unchanged. -/
theorem connect_close_exactly_once (t : HandleTable) (h : Int)
    (hpos : 0 < h) :
    (spm_connect_success_reply t h).conns h = some (.Established false) ∧
    (tfm_spm_client_psa_close (spm_connect_success_reply t h) h).1 =
      .ok () ∧
    (tfm_spm_client_psa_close (spm_connect_success_reply t h) h).2.conns h =
      none ∧
    tfm_spm_client_psa_close
        (tfm_spm_client_psa_close (spm_connect_success_reply t h) h).2 h =
      (.error .ProgrammerError,
       (tfm_spm_client_psa_close (spm_connect_success_reply t h) h).2) := by
  have h0 : ¬ h = 0 := by omega
  have hneg : ¬ h < 0 := by omega
  have hc1 : tfm_spm_client_psa_close (spm_connect_success_reply t h) h =
      (.ok (), ⟨Function.update (Function.update t.conns h
        (some (.Established false))) h none⟩) := by
    rw [tfm_spm_client_psa_close, if_neg h0, if_neg hneg]
    simp [spm_connect_success_reply, Function.update_same]
  refine ⟨by simp [spm_connect_success_reply, Function.update_same],
    ?_, ?_, ?_⟩
  · rw [hc1]
  · rw [hc1]
    simp [Function.update_same]
  · rw [hc1]
    rw [tfm_spm_client_psa_close, if_neg h0, if_neg hneg]
    simp [Function.update_same]

/-- Witness for C7 on the empty table with handle 1. -/
theorem connect_close_exactly_once_witness :
    (0 : Int) < 1 ∧
    (tfm_spm_client_psa_close
        (spm_connect_success_reply ⟨fun _ => none⟩ 1) 1).1 = .ok () ∧
    tfm_spm_client_psa_close
        (tfm_spm_client_psa_close
          (spm_connect_success_reply ⟨fun _ => none⟩ 1) 1).2 1 =
      (.error .ProgrammerError,
       (tfm_spm_client_psa_close
          (spm_connect_success_reply ⟨fun _ => none⟩ 1) 1).2) := by
  have h := connect_close_exactly_once ⟨fun _ => none⟩ 1 (by decide)
  exact ⟨by decide, h.2.1, h.2.2.2⟩

/-- Claim C8: notify on a valid partition succeeds, asserts the doorbell
bit of the target's signal register, and is idempotent while unconsumed
(a second notify before a clear leaves the register state identical);
notify with an id that names no partition is a fatal programmer error. -/
theorem notify_doorbell_idempotent (w : World) (target bad : Int)
    (p : PartRec) (hpart : w.parts target = some p) :
    (tfm_spm_partition_psa_notify w target).1 = .ok () ∧
    (tfm_spm_partition_psa_notify w target).2.parts target =
      some { p with signals := p.signals ||| PSA_DOORBELL } ∧
    (p.signals ||| PSA_DOORBELL) &&& PSA_DOORBELL = PSA_DOORBELL ∧
    (tfm_spm_partition_psa_notify
        (tfm_spm_partition_psa_notify w target).2 target).2 =
      (tfm_spm_partition_psa_notify w target).2 ∧
    (w.parts bad = none →
      tfm_spm_partition_psa_notify w bad = (.error .ProgrammerError, w)) := by
  have h1 : tfm_spm_partition_psa_notify w target =
      (.ok (), ⟨Function.update w.parts target
        (some { p with signals := p.signals ||| PSA_DOORBELL })⟩) := by
    simp [tfm_spm_partition_psa_notify, hpart]
  refine ⟨by rw [h1], by rw [h1]; simp [Function.update_same],
    or_doorbell_asserted p.signals, ?_, ?_⟩
  · rw [h1]
    simp [tfm_spm_partition_psa_notify, Function.update_same,
      Function.update_idem, Nat.or_assoc, Nat.or_self]
  · intro hbad
    simp [tfm_spm_partition_psa_notify, hbad]

/-- Witness for C8: doubling notify on partition 2 leaves the registry in
the same state as a single notify. -/
theorem notify_doorbell_idempotent_witness :
    World.parts ⟨fun pid => if pid = 2 then some ⟨0, fun _ => none, 0, 0⟩
      else none⟩ 2 = some ⟨0, fun _ => none, 0, 0⟩ ∧
    (tfm_spm_partition_psa_notify
        (tfm_spm_partition_psa_notify ⟨fun pid => if pid = 2 then
          some ⟨0, fun _ => none, 0, 0⟩ else none⟩ 2).2 2).2 =
      (tfm_spm_partition_psa_notify ⟨fun pid => if pid = 2 then
          some ⟨0, fun _ => none, 0, 0⟩ else none⟩ 2).2 :=
  ⟨rfl, (notify_doorbell_idempotent ⟨fun pid => if pid = 2 then
      some ⟨0, fun _ => none, 0, 0⟩ else none⟩ 2 9 ⟨0, fun _ => none, 0, 0⟩
      rfl).2.2.2.1⟩

/-- Claim C3 (refuted by the code's own documentation): irq_disable is
claimed to return whether the interrupt was enabled immediately before
the call, but per the header's note the implementation returns the
constant 1; with partition 7 owning interrupt signal 0x10 whose interrupt
is currently disabled, the call validates and still returns 1 where the
claim requires 0. -/
theorem irq_disable_returns_one_when_previously_disabled :
    PartRec.irq_enabled ⟨0, fun _ => none, 16, 0⟩ &&& 16 = 0 ∧
    (tfm_spm_partition_psa_irq_disable
        ⟨fun pid => if pid = 7 then some ⟨0, fun _ => none, 16, 0⟩ else none⟩
        7 16).1 = .ok 1 :=
  ⟨rfl, rfl⟩

/-- Claim C9: failure atomicity: whenever any operation of the modelled
core — connect, call, close, wait, get, read, skip, write, map/unmap of
input and output vectors, reply, set_rhandle, notify, clear, irq_enable,
irq_disable, reset_signal, eoi — fails with a programmer error (invalid
handle, invalid vector index or memory reference, invalid signal shape,
state-machine violation), the shared state after the operation equals the
state before it: all validation happens before any mutation. -/
theorem failed_op_leaves_state_unchanged (s : Sys) (op : Op)
    (herr : (stepSys s op).1 = .error .ProgrammerError) :
    (stepSys s op).2 = s := by
  cases op with
  | connect caller sid version =>
      simp only [stepSys] at herr ⊢
      exact connect_error_frame s caller sid version .ProgrammerError
        (except_map_error_eq _ _ _ herr)
  | call caller handle ty ivs ovs =>
      simp only [stepSys] at herr ⊢
      exact call_error_frame s caller handle ty ivs ovs .ProgrammerError herr
  | close h =>
      simp only [stepSys] at herr ⊢
      rw [close_error_frame s.table h .ProgrammerError herr]
  | wait caller mask t =>
      simp only [stepSys] at herr ⊢
      exact wait_error_frame s caller mask t .ProgrammerError
        (except_map_error_eq _ _ _ herr)
  | get caller signal ptr =>
      simp only [stepSys] at herr ⊢
      by_cases hacc : s.accessible caller ptr.1 ptr.2 = false
      · rw [if_pos hacc]
      · rw [if_neg hacc] at herr ⊢
        rw [get_programmer_error_frame s.world caller signal
          (except_map_error_eq _ _ _ herr)]
  | read caller idx n buf =>
      simp only [stepSys] at herr ⊢
      by_cases hacc : s.accessible caller buf.1 buf.2 = false
      · rw [if_pos hacc]
      · rw [if_neg hacc] at herr ⊢
        rw [stepVec_error_frame s.msg (.read idx n) .ProgrammerError herr]
  | skip idx n =>
      simp only [stepSys] at herr ⊢
      rw [stepVec_error_frame s.msg (.skip idx n) .ProgrammerError herr]
  | write caller idx n buf =>
      simp only [stepSys] at herr ⊢
      by_cases hacc : s.accessible caller buf.1 buf.2 = false
      · rw [if_pos hacc]
      · rw [if_neg hacc] at herr ⊢
        rw [stepVec_error_frame s.msg (.write idx n) .ProgrammerError herr]
  | mapIn idx =>
      simp only [stepSys] at herr ⊢
      rw [stepVec_error_frame s.msg (.mapIn idx) .ProgrammerError herr]
  | unmapIn idx =>
      simp only [stepSys] at herr ⊢
      rw [stepVec_error_frame s.msg (.unmapIn idx) .ProgrammerError herr]
  | mapOut idx =>
      simp only [stepSys] at herr ⊢
      rw [stepVec_error_frame s.msg (.mapOut idx) .ProgrammerError herr]
  | unmapOut idx len =>
      simp only [stepSys] at herr ⊢
      rw [stepVec_error_frame s.msg (.unmapOut idx len) .ProgrammerError herr]
  | reply mh status =>
      simp only [stepSys] at herr ⊢
      exact reply_error_frame s mh status .ProgrammerError herr
  | set_rhandle mh rh =>
      simp only [stepSys] at herr ⊢
      exact set_rhandle_error_frame s mh rh .ProgrammerError herr
  | notify pid =>
      simp only [stepSys] at herr ⊢
      rw [notify_error_frame s.world pid .ProgrammerError herr]
  | clear caller =>
      simp only [stepSys] at herr ⊢
      exact clear_error_frame s caller .ProgrammerError herr
  | irqEnable caller sig =>
      simp only [stepSys] at herr ⊢
      exact irq_enable_error_frame s caller sig .ProgrammerError herr
  | irqDisable caller sig =>
      simp only [stepSys] at herr ⊢
      rw [irq_disable_error_frame s.world caller sig .ProgrammerError
        (except_map_error_eq _ _ _ herr)]
  | resetSignal caller sig =>
      simp only [stepSys] at herr ⊢
      exact reset_signal_error_frame s caller sig .ProgrammerError herr
  | eoi caller sig =>
      simp only [stepSys] at herr ⊢
      exact eoi_error_frame s caller sig .ProgrammerError herr

/-- Witness for C9: on the empty system, closing the unknown handle 5
fails with a programmer error, and a read whose buffer reference the
isolation boundary rejects fails with a programmer error; both leave the
system state unchanged. -/
theorem failed_op_leaves_state_unchanged_witness :
    (stepSys emptySys (.close 5)).1 = .error .ProgrammerError ∧
    (stepSys emptySys (.close 5)).2 = emptySys ∧
    (stepSys emptySys (.read 1 0 5 (100, 4))).1 = .error .ProgrammerError ∧
    (stepSys emptySys (.read 1 0 5 (100, 4))).2 = emptySys :=
  ⟨rfl, failed_op_leaves_state_unchanged emptySys (.close 5) rfl,
   rfl, failed_op_leaves_state_unchanged emptySys (.read 1 0 5 (100, 4)) rfl⟩

end Spm
